import Mathlib

/-!
Verification development for the BAM "sniper engine" ingestion pipeline
(`sniper_engine.py`, `bam_snapshot.py`).  The Python code is shallowly
embedded: Python values flowing through the normalizer and the storage
stage are modelled by the inductive `PyVal`; functions that can raise a
Python exception return `Except PyErr _`; machine floats are modelled by
rationals (binary-float rounding is not modelled; the CPython textual
`repr` of a float is an explicit parameter `floatRepr` wherever the code
stringifies a value, so every theorem holds for any rendering).
-/

/-- Python exception kinds that the modelled code can raise. -/
inductive PyErr where
  | attributeError
  | typeError
deriving DecidableEq

/-- A Python/JSON value as it appears in API payloads and listings.
`float` is modelled by `ℚ`. -/
inductive PyVal where
  | none
  | bool (b : Bool)
  | int (n : ℤ)
  | float (q : ℚ)
  | str (s : String)
  | list (xs : List PyVal)
  | dict (entries : List (String × PyVal))

/-- Python truthiness: `None`, `False`, `0`, `0.0`, `""`, `[]`, `{}` are falsy. -/
def PyVal.truthy : PyVal → Bool
  | .none => false
  | .bool b => b
  | .int n => n ≠ 0
  | .float q => q ≠ 0
  | .str s => s ≠ ""
  | .list xs => ¬ xs.isEmpty
  | .dict es => ¬ es.isEmpty

/-- Python `a or b`: `a` if truthy, else `b`. -/
def pyOr (a b : PyVal) : PyVal := if a.truthy then a else b

/-- A raw feed record / Python dict: association list of string keys. -/
abbrev RawRecord : Type := List (String × PyVal)

/-- `d.get(k, default)` on a dict. -/
def rawGetD (r : RawRecord) (k : String) (d : PyVal) : PyVal :=
  match r.find? (fun e => e.1 == k) with
  | Option.some e => e.2
  | Option.none => d

/-- `d.get(k)` on a dict (default `None`). -/
def rawGet (r : RawRecord) (k : String) : PyVal := rawGetD r k .none

/-- Numeric view used by Python `==` and `float()`: bools count as 0/1. -/
def PyVal.toNum? : PyVal → Option ℚ
  | .bool b => Option.some (if b then 1 else 0)
  | .int n => Option.some (n : ℚ)
  | .float q => Option.some q
  | _ => Option.none

/-- Python hashability: lists and dicts are unhashable (`in set` raises). -/
def hashable : PyVal → Bool
  | .list _ => false
  | .dict _ => false
  | _ => true

def PyVal.isStr : PyVal → Bool
  | .str _ => true
  | _ => false

def PyVal.strVal : PyVal → String
  | .str s => s
  | _ => ""

/-- Python `==` on the hashable fragment (the only place the embedded code
compares values: set membership after a hashability check).  Numbers
compare across `bool`/`int`/`float`; container equality is unreachable
because unhashable values raise `TypeError` before any comparison. -/
def pyEq (a b : PyVal) : Bool :=
  match a.toNum?, b.toNum? with
  | Option.some x, Option.some y => x = y
  | Option.some _, Option.none => false
  | Option.none, Option.some _ => false
  | Option.none, Option.none =>
    match a, b with
    | .none, .none => true
    | .str s, .str t => s = t
    | _, _ => false

/-- An ASCII single quote, used by Python `repr` of strings. -/
def pyQuote : String := String.singleton (Char.ofNat 39)

mutual
/-- Python `repr` of a value.  String escaping inside `repr` of a string is
not modelled (quotes are always the plain single quote); `repr` of a float
is the explicit `floatRepr` parameter. -/
def pyRepr (floatRepr : ℚ → String) : PyVal → String
  | .none => "None"
  | .bool b => if b then "True" else "False"
  | .int n => toString n
  | .float q => floatRepr q
  | .str s => pyQuote ++ s ++ pyQuote
  | .list xs => "[" ++ pyReprList floatRepr xs ++ "]"
  | .dict es => "\x7b" ++ pyReprDict floatRepr es ++ "\x7d"

def pyReprList (floatRepr : ℚ → String) : List PyVal → String
  | [] => ""
  | [x] => pyRepr floatRepr x
  | x :: y :: rest => pyRepr floatRepr x ++ ", " ++ pyReprList floatRepr (y :: rest)

def pyReprDict (floatRepr : ℚ → String) : List (String × PyVal) → String
  | [] => ""
  | [e] => pyQuote ++ e.1 ++ pyQuote ++ ": " ++ pyRepr floatRepr e.2
  | e :: f :: rest => pyQuote ++ e.1 ++ pyQuote ++ ": " ++ pyRepr floatRepr e.2 ++ ", " ++ pyReprDict floatRepr (f :: rest)
end

/-- Python `str(v)`: identity on strings, `repr` otherwise. -/
def pyStr (floatRepr : ℚ → String) : PyVal → String
  | .str s => s
  | v => pyRepr floatRepr v

/-- Numeric value of a digit string. -/
def digitsVal (cs : List Char) : ℕ :=
  cs.foldl (fun a c => a * 10 + (c.toNat - 48)) 0

def isSpaceChar (c : Char) : Bool :=
  c = ' ' ∨ c = '\t' ∨ c = '\n' ∨ c = '\r'

/-- Parse `digits`, `digits.digits`, `digits.` or `.digits` returning the
value and the unconsumed suffix. -/
def parseUnsigned (cs : List Char) : Option (ℚ × List Char) :=
  let ip := cs.takeWhile Char.isDigit
  let r1 := cs.dropWhile Char.isDigit
  match r1 with
  | '.' :: r2 =>
    let fp := r2.takeWhile Char.isDigit
    let r3 := r2.dropWhile Char.isDigit
    if ip.isEmpty ∧ fp.isEmpty then Option.none
    else Option.some ((digitsVal ip : ℚ) + (digitsVal fp : ℚ) / (10 : ℚ) ^ fp.length, r3)
  | _ =>
    if ip.isEmpty then Option.none
    else Option.some ((digitsVal ip : ℚ), r1)

/-- Parse an optional exponent part `e[±]digits`. -/
def parseExpPart (cs : List Char) : Option (ℤ × List Char) :=
  match cs with
  | 'e' :: rest | 'E' :: rest =>
    let (sign, r1) : ℤ × List Char :=
      match rest with
      | '+' :: r => (1, r)
      | '-' :: r => (-1, r)
      | r => (1, r)
    let ds := r1.takeWhile Char.isDigit
    if ds.isEmpty then Option.none
    else Option.some (sign * (digitsVal ds : ℤ), r1.dropWhile Char.isDigit)
  | _ => Option.some (0, cs)

/-- Python `float(s)` on a string: optional surrounding whitespace, optional
sign, decimal digits with optional fraction and exponent.  `inf`/`nan`
literals and digit-group underscores are outside the rational model and
parse as failures here. -/
def pyFloatOfString (s : String) : Option ℚ :=
  let cs := (((s.toList.dropWhile isSpaceChar).reverse.dropWhile isSpaceChar).reverse)
  let (sign, cs1) : ℚ × List Char :=
    match cs with
    | '+' :: r => (1, r)
    | '-' :: r => (-1, r)
    | r => (1, r)
  match parseUnsigned cs1 with
  | Option.none => Option.none
  | Option.some (v, r2) =>
    match parseExpPart r2 with
    | Option.none => Option.none
    | Option.some (e, r3) =>
      if r3.isEmpty then Option.some (sign * v * (10 : ℚ) ^ e) else Option.none

/-- `to_float(value, default)` from sniper_engine.py lines 245-251: `None`
maps to the default, numbers convert, strings parse, and any
`TypeError`/`ValueError` (containers, unparsable strings) yields the
default.  `Option.none` models Python `None`. -/
def to_float (value : PyVal) (default : Option ℚ) : Option ℚ :=
  match value with
  | .none => default
  | .bool b => Option.some (if b then 1 else 0)
  | .int n => Option.some (n : ℚ)
  | .float q => Option.some q
  | .str s =>
    match pyFloatOfString s with
    | Option.some q => Option.some q
    | Option.none => default
  | .list _ => default
  | .dict _ => default

/-- First match of the regex `[0-9]+(?:\.[0-9]+)?` in a character list:
the leftmost maximal digit run, greedily extended by `.digits`. -/
def scanNumber : List Char → Option (List Char × List Char)
  | [] => Option.none
  | c :: rest =>
    if c.isDigit then
      let ip := (c :: rest).takeWhile Char.isDigit
      let after := (c :: rest).dropWhile Char.isDigit
      match after with
      | '.' :: d :: _ =>
        if d.isDigit then Option.some (ip, ('.' :: d :: (after.drop 2)).drop 1 |>.takeWhile Char.isDigit)
        else Option.some (ip, [])
      | _ => Option.some (ip, [])
    else scanNumber rest

/-- `extract_number(text)` from sniper_engine.py lines 254-258: falsy input
gives `None`; otherwise the first embedded decimal token of `str(text)` is
parsed as a float. -/
def extract_number (floatRepr : ℚ → String) (text : PyVal) : Option ℚ :=
  if ¬ text.truthy then Option.none
  else
    match scanNumber (pyStr floatRepr text).toList with
    | Option.none => Option.none
    | Option.some (ip, fp) =>
      Option.some ((digitsVal ip : ℚ) + (digitsVal fp : ℚ) / (10 : ℚ) ^ fp.length)

/-- One source of `gather_images` (sniper_engine.py lines 261-276). -/
def gatherOne (acc : List PyVal) (source : PyVal) : List PyVal :=
  if ¬ source.truthy then acc
  else
    match source with
    | .list items =>
      items.foldl
        (fun a it =>
          match it with
          | .dict es => if (rawGet es "url").truthy then a ++ [rawGet es "url"] else a
          | .str s => a ++ [.str s]
          | _ => a)
        acc
    | .dict es => if (rawGet es "url").truthy then acc ++ [rawGet es "url"] else acc
    | .str s => acc ++ [.str s]
    | _ => acc

/-- `gather_images(*sources)` from sniper_engine.py lines 261-276. -/
def gather_images (sources : List PyVal) : List PyVal :=
  sources.foldl gatherOne []

/-- Loop of `dedupe_images` (sniper_engine.py lines 279-289): falsy entries
are dropped, an unhashable entry raises `TypeError` at the set-membership
test, repeats (by Python `==`) are dropped. -/
def dedupeGo (seen deduped : List PyVal) : List PyVal → Except PyErr (List PyVal)
  | [] => .ok deduped
  | url :: rest =>
    if ¬ url.truthy then dedupeGo seen deduped rest
    else if ¬ hashable url then .error .typeError
    else if seen.any (fun v => pyEq v url) then dedupeGo seen deduped rest
    else dedupeGo (url :: seen) (deduped ++ [url]) rest

/-- `dedupe_images(urls)` from sniper_engine.py lines 279-289. -/
def dedupe_images (urls : List PyVal) : Except PyErr (List PyVal) :=
  dedupeGo [] [] urls

/-- `combine_contact(name, *phones)` from sniper_engine.py lines 292-299.
`", ".join` raises `TypeError` when a truthy phone is not a string. -/
def combine_contact (floatRepr : ℚ → String) (name : PyVal) (phones : List PyVal) : Except PyErr PyVal :=
  let phone_list := phones.filter PyVal.truthy
  if phone_list.any (fun p => ! p.isStr) then .error .typeError
  else
    let phone_text := String.intercalate ", " (phone_list.map PyVal.strVal)
    if name.truthy ∧ phone_text ≠ "" then
      .ok (.str (pyStr floatRepr name ++ " (" ++ phone_text ++ ")"))
    else if name.truthy then .ok name
    else .ok (if phone_text ≠ "" then .str phone_text else .none)

/-- `build_location(item)` from sniper_engine.py lines 302-310. -/
def build_location (floatRepr : ℚ → String) (item : RawRecord) : Except PyErr PyVal :=
  let location_parts := [rawGet item "province", rawGet item "district", rawGet item "subDistrict"]
  let kept := location_parts.filter PyVal.truthy
  if kept.any (fun p => ! p.isStr) then .error .typeError
  else
    let location_core := String.intercalate ", " (kept.map PyVal.strVal)
    let property_location := rawGet item "propertyLocation"
    if property_location.truthy ∧ location_core ≠ "" then
      .ok (.str (location_core ++ " | " ++ pyStr floatRepr property_location))
    else if property_location.truthy then .ok property_location
    else if location_core ≠ "" then .ok (.str location_core)
    else .ok (pyOr (rawGet item "location") (.str "Unknown"))

/-- Python `round` to the nearest integer with ties to even. -/
def bankersRound (q : ℚ) : ℤ :=
  if Int.fract q < 1 / 2 then ⌊q⌋
  else if 1 / 2 < Int.fract q then ⌊q⌋ + 1
  else if Even ⌊q⌋ then ⌊q⌋ else ⌊q⌋ + 1

/-- Python `round(x, 1)`. -/
def round1 (q : ℚ) : ℚ := (bankersRound (q * 10) : ℚ) / 10

/-- The metrics dict returned by `calculate_rating`. -/
structure Metrics where
  strategy : String
  rating : ℚ
  transport : ℤ
  food : ℤ
  safety : ℤ
deriving DecidableEq

/-- `calculate_rating(price, size, lat, lon)` from sniper_engine.py lines
212-243.  The three `random.randint` draws are the explicit parameters
`t`, `f`, `s`: the code draws `t = randint(4, 10)`, `f = randint(5, 10)`,
`s = randint(6, 10)`. -/
def calculate_rating (price size _lat _lon : ℚ) (t f s : ℤ) : Metrics :=
  let score : ℚ := 5
  let price_per_sqm : ℚ := if size > 0 then price / size else 0
  let sp : String × ℚ :=
    if price_per_sqm < 40000 then ("Big Flip", score + 2)
    else if price_per_sqm < 80000 then ("Cash Flow", score + 1)
    else ("Hold", score)
  let total_rating : ℚ := min 10 (sp.2 + (t : ℚ) / 10 + (f : ℚ) / 10)
  { strategy := sp.1
    rating := round1 total_rating
    transport := t
    food := f
    safety := s }

/-- One entry of `CATEGORY_CONFIGS` (sniper_engine.py lines 43-50). -/
structure CategoryConfig where
  label : String
  asset_types : List String
  property_type_hint : String
  sale_channel : String

/-- `CATEGORY_CONFIGS` from sniper_engine.py lines 43-50. -/
def CATEGORY_CONFIGS : List CategoryConfig :=
  [ ⟨"General Feed", [], "Mixed", "standard"⟩,
    ⟨"Single Houses", ["บ้านเดี่ยว"], "บ้านเดี่ยว", "standard"⟩,
    ⟨"Townhouses", ["ทาวน์เฮ้าส์"], "ทาวน์เฮ้าส์", "standard"⟩,
    ⟨"Condos", ["ห้องชุดพักอาศัย"], "ห้องชุดพักอาศัย", "standard"⟩,
    ⟨"Vacant Land", ["ที่ดินเปล่า"], "ที่ดินเปล่า", "standard"⟩,
    ⟨"Commercial Buildings", ["อาคารพาณิชย์"], "อาคารพาณิชย์", "standard"⟩ ]

/-- The normalized listing dict (spec §3 NormalizedListing): loosely typed
fields stay `PyVal`, numeric fields are the types the code guarantees. -/
structure Listing where
  source : PyVal
  title : PyVal
  price : ℚ
  size : ℚ
  lat : ℚ
  lon : ℚ
  url : PyVal
  location : PyVal
  description : PyVal
  contact : PyVal
  bank : PyVal
  images : List PyVal
  metrics : Metrics
  property_type : PyVal
  sale_channel : PyVal
  bedrooms : Option ℚ
  bathrooms : Option ℚ
  rooms : Option ℚ

/-- Python `a or b` over optional floats (`None` and `0.0` are falsy). -/
def pyOrNum (a b : Option ℚ) : Option ℚ :=
  match a with
  | Option.some q => if q ≠ 0 then Option.some q else b
  | Option.none => b

/-- `map_info.get(...)` access: raises `AttributeError` unless the value is
a dict (sniper_engine.py line 323 on a non-dict `map`/`geoMap` value). -/
def mapAttr : PyVal → Except PyErr (List (String × PyVal))
  | .dict es => .ok es
  | _ => .error .attributeError

/-- `normalize_regular_item(item, config)` from sniper_engine.py lines
313-369.  `r1`, `r2` are the two `random.random()` draws (each in `[0,1)`)
used for synthetic coordinates; `t`, `f`, `s` are the `randint` draws
inside `calculate_rating`.  Error cases mirror the Python exceptions: a
truthy non-dict `map`/`geoMap` raises `AttributeError`; an unhashable
image entry or a truthy non-string part in the location/contact joins
raises `TypeError`. -/
def normalize_regular_item (floatRepr : ℚ → String) (r1 r2 : ℚ) (t f s : ℤ)
    (item : RawRecord) (config : CategoryConfig) : Except PyErr Listing :=
  let asset_no := pyOr (rawGet item "assetNo") (.str (pyStr floatRepr (rawGetD item "id" (.str ""))))
  let title := pyOr (rawGet item "projectTH") (pyOr (rawGet item "assetType")
    (if asset_no.truthy then .str ("NPA Asset " ++ pyStr floatRepr asset_no) else .str "NPA Asset"))
  let price := (to_float (pyOr (rawGet item "sellPrice") (pyOr (rawGet item "shockPrice")
    (pyOr (rawGet item "discountPrice") (.int 0)))) (Option.some 0)).getD 0
  let size := ((to_float (pyOr (rawGet item "usableArea") (pyOr (rawGet item "areaMeter")
    (rawGet item "areaWa"))) Option.none).getD 0)
  let bedrooms := extract_number floatRepr (pyOr (rawGet item "bedroom") (rawGet item "studio"))
  let bathrooms := extract_number floatRepr (rawGet item "bathroom")
  let rooms := pyOrNum (pyOrNum (extract_number floatRepr (rawGet item "rooms")) bedrooms)
    (extract_number floatRepr (rawGet item "studio"))
  match mapAttr (pyOr (rawGet item "map") (pyOr (rawGet item "geoMap") (.dict []))) with
  | .error e => .error e
  | .ok map_info =>
    let lat0 := to_float (pyOr (rawGet map_info "langtitude") (rawGet map_info "latitude")) Option.none
    let lon0 := to_float (pyOr (rawGet map_info "longtitude") (rawGet map_info "longitude")) Option.none
    let ll : ℚ × ℚ :=
      match lat0, lon0 with
      | Option.some la, Option.some lo => (la, lo)
      | _, _ => (13.7 + r1 * 0.1, 100.5 + r2 * 0.1)
    let property_images := gather_images
      [rawGet item "albumProperty", rawGet item "media", rawGet item "albumPackage1",
       rawGet item "albumPackage2", rawGet item "albumPackage3"]
    let map_images := gather_images
      [rawGet map_info "imageUrl", rawGet map_info "imageUrl360", rawGet map_info "mapImage"]
    match dedupe_images (property_images ++ map_images) with
    | .error e => .error e
    | .ok images =>
      match build_location floatRepr item with
      | .error e => .error e
      | .ok location =>
        match combine_contact floatRepr (pyOr (rawGet item "adminName") (rawGet item "adminNameConx"))
          [rawGet item "telephone", rawGet item "workPhone", rawGet item "workPhoneNxt",
           rawGet item "workPhoneConx"] with
        | .error e => .error e
        | .ok contact =>
          .ok
            { source := .str "BAM"
              title := title
              price := price
              size := size
              lat := ll.1
              lon := ll.2
              url := if asset_no.truthy
                then .str ("https://www.bam.co.th/asset/" ++ pyStr floatRepr asset_no)
                else .str "https://www.bam.co.th/asset/"
              location := location
              description := pyOr (rawGet item "propertyDetail")
                (pyOr (rawGet item "summary") (rawGet item "location"))
              contact := contact
              bank := pyOr (rawGet item "departmentName") (pyOr (rawGet item "groupOfDepartment")
                (pyOr (rawGet item "groupProperty") (.str "BAM")))
              images := images
              metrics := calculate_rating price size ll.1 ll.2 t f s
              property_type := pyOr (rawGet item "assetType") (.str config.property_type_hint)
              sale_channel := .str config.sale_channel
              bedrooms := bedrooms
              bathrooms := bathrooms
              rooms := rooms }

/-- Outcome of one POST attempt as seen by `_post_with_retry`. -/
inductive HttpOutcome where
  | success
  | httpError (status : Option ℕ)
  | netError
deriving DecidableEq

/-- How the retry loop ends: the response is returned or the exception is
re-raised. -/
inductive RetryEnd where
  | returned
  | raised
deriving DecidableEq

/-- Default `BAM_RETRY_STATUSES` (sniper_engine.py lines 34-38). -/
def RETRYABLE_STATUS_CODES : List ℕ := [500, 502, 503, 504]

/-- `_post_with_retry(url, payload, label, page_number)` from
sniper_engine.py lines 55-90, modelled from attempt number `attempt`
onward.  `respond k` is the outcome of the k-th POST.  Returns the number
of POST attempts issued, the list of back-off sleeps (each
`backoff ^ (attempt - 1)` seconds), and whether the call returned or
raised.  An HTTP error retries only when the status is retryable (absent
or falsy status counts as retryable) and `attempt < maxRetries`; a
connection/timeout error retries whenever `attempt < maxRetries`. -/
def _post_with_retry (respond : ℕ → HttpOutcome) (maxRetries : ℕ)
    (retryStatuses : List ℕ) (backoff : ℚ) (attempt : ℕ) : ℕ × List ℚ × RetryEnd :=
  match respond attempt with
  | .success => (1, [], .returned)
  | .httpError status =>
    let retryable : Bool :=
      match status with
      | Option.some code => if code ≠ 0 then retryStatuses.contains code else true
      | Option.none => true
    if h : retryable ∧ attempt < maxRetries then
      let rest := _post_with_retry respond maxRetries retryStatuses backoff (attempt + 1)
      (rest.1 + 1, backoff ^ (attempt - 1) :: rest.2.1, rest.2.2)
    else (1, [], .raised)
  | .netError =>
    if h : attempt < maxRetries then
      let rest := _post_with_retry respond maxRetries retryStatuses backoff (attempt + 1)
      (rest.1 + 1, backoff ^ (attempt - 1) :: rest.2.1, rest.2.2)
    else (1, [], .raised)
termination_by maxRetries - attempt
decreasing_by
  · omega
  · omega

/-- `PageWindow` (sniper_engine.py lines 93-114). -/
structure PageWindow where
  target : Option ℤ
  processed : ℕ
deriving DecidableEq

/-- `PageWindow.__init__`: `target if target and target > 0 else None`
(a falsy or non-positive target means unbounded). -/
def PageWindow.init (t : Option ℤ) : PageWindow :=
  { target :=
      match t with
      | Option.none => Option.none
      | Option.some v => if 0 < v then Option.some v else Option.none
    processed := 0 }

/-- `PageWindow.allow_next`. -/
def PageWindow.allow_next (w : PageWindow) : Bool :=
  match w.target with
  | Option.none => true
  | Option.some tg => (w.processed : ℤ) < tg

/-- `PageWindow.mark_complete`. -/
def PageWindow.mark_complete (w : PageWindow) : PageWindow :=
  match w.target with
  | Option.none => w
  | Option.some _ => { w with processed := w.processed + 1 }

/-- `PageWindow.remaining`. -/
def PageWindow.remaining (w : PageWindow) : Option ℤ :=
  match w.target with
  | Option.none => Option.none
  | Option.some tg => Option.some (max (tg - (w.processed : ℤ)) 0)

/-- `PageWindow.exhausted`. -/
def PageWindow.exhausted (w : PageWindow) : Bool :=
  match w.target with
  | Option.none => false
  | Option.some tg => tg ≤ (w.processed : ℤ)

/-- `FeedSnapshot` (bam_snapshot.py lines 54-59). -/
structure FeedSnapshot where
  feed_type : String
  category : String
  total_records : ℤ
  page_count : ℤ
deriving DecidableEq

/-- `_range_set(start, end)` (bam_snapshot.py lines 163-164):
`range(start, end + 1)` over integers. -/
def rangeSet (s e : ℤ) : List ℤ :=
  (List.range (e + 1 - s).toNat).map (fun (i : ℕ) => s + (i : ℤ))

/-- Ordered insertion dropping duplicates: together with `sortKeys` this
models the `pages` dict of `_compute_plan_pages` (`setdefault` keeps one
copy of each page) followed by `sorted(pages.keys())`. -/
def insertKey (x : ℤ) : List ℤ → List ℤ
  | [] => [x]
  | y :: ys => if x < y then x :: y :: ys else if x = y then y :: ys else y :: insertKey x ys

/-- Sorted list of the distinct values of `l`; models
`sorted(pages.keys())` where `pages` collects pages as dict keys. -/
def sortKeys (l : List ℤ) : List ℤ := l.foldr insertKey []

/-- `_compute_plan_pages(current, previous)` from bam_snapshot.py lines
167-199.  `head_refresh` and `tail_recheck` are the `HEAD_REFRESH_PAGES`
and `TAIL_RECHECK_PAGES` knobs (naturals: the code clamps the env values
with `max(0, ...)`). -/
def _compute_plan_pages (head_refresh tail_recheck : ℕ)
    (current : FeedSnapshot) (previous : Option FeedSnapshot) : List ℤ :=
  let current_pages : ℤ := max 0 current.page_count
  if current_pages ≤ 0 then []
  else
    let head_limit := min current_pages (head_refresh : ℤ)
    let headPages := if 0 < head_limit then rangeSet 1 head_limit else []
    let tail_limit := min current_pages (tail_recheck : ℤ)
    let tailPages :=
      if 0 < tail_limit then rangeSet (max 1 (current_pages - tail_limit + 1)) current_pages
      else []
    let deltaPages :=
      match previous with
      | Option.none => []
      | Option.some prev =>
        let prev_pages : ℤ := max 0 prev.page_count
        if prev_pages < current_pages then
          if prev_pages + 1 ≤ current_pages then rangeSet (prev_pages + 1) current_pages else []
        else if current_pages < prev_pages then
          let shrink_tail := min current_pages (2 * (tail_recheck : ℤ))
          if 0 < shrink_tail then
            if max 1 (current_pages - shrink_tail + 1) ≤ current_pages then
              rangeSet (max 1 (current_pages - shrink_tail + 1)) current_pages
            else []
          else []
        else []
    sortKeys (headPages ++ tailPages ++ deltaPages)

/-- Mutable state of the `save_to_cloud` loop (sniper_engine.py lines
700-808).  `writes` records the listings for which an upsert statement was
executed, in order; the other fields are the run counters. -/
structure SyncState where
  seen : List PyVal
  duplicatesSkipped : ℕ
  processed : ℕ
  newTotal : ℕ
  batchInserted : ℕ
  batchNumber : ℕ
  aborted : Bool
  writes : List Listing

/-- Initial state of the `save_to_cloud` loop. -/
def initSyncState : SyncState :=
  { seen := [], duplicatesSkipped := 0, processed := 0, newTotal := 0,
    batchInserted := 0, batchNumber := 1, aborted := false, writes := [] }

/-- `','.join(item['images'])` succeeds iff the images are absent/empty or
all strings (sniper_engine.py lines 724-726). -/
def photosOk (item : Listing) : Bool :=
  item.images.isEmpty || item.images.all PyVal.isStr

/-- Loop of `save_to_cloud(listings)` (sniper_engine.py lines 708-798).
A falsy `url` is skipped with no effect; an unhashable truthy `url` raises
`TypeError` at `url in seen_urls`; a repeat `url` counts one
duplicate-skip; otherwise the row is upserted (recorded in `writes`).
`isNew k` is the database's answer (`xmax = 0`) for the k-th executed
upsert; after `BATCH_SIZE` fresh inserts the batch is committed and
`confirm n` is the operator's decision after batch `n`
(`wait_for_user_confirmation`) — refusal sets `aborted` and breaks.
Translation calls never raise (translate_text swallows its errors) and do
not affect counters, so they are not tracked. -/
def syncRun (batchSize : ℤ) (confirm : ℕ → Bool) (isNew : ℕ → Bool) :
    SyncState → List Listing → Except PyErr SyncState
  | st, [] => .ok st
  | st, item :: rest =>
    if ¬ item.url.truthy then syncRun batchSize confirm isNew st rest
    else if ¬ hashable item.url then .error .typeError
    else if st.seen.any (fun v => pyEq v item.url) then
      syncRun batchSize confirm isNew
        { st with duplicatesSkipped := st.duplicatesSkipped + 1 } rest
    else if ¬ photosOk item then .error .typeError
    else
      let inserted := isNew st.writes.length
      let st1 : SyncState :=
        { st with
          seen := item.url :: st.seen
          writes := st.writes ++ [item]
          processed := st.processed + 1
          newTotal := st.newTotal + (if inserted then 1 else 0)
          batchInserted := st.batchInserted + (if inserted then 1 else 0) }
      if 0 < batchSize ∧ batchSize ≤ (st1.batchInserted : ℤ) then
        if ¬ confirm st1.batchNumber then .ok { st1 with aborted := true }
        else syncRun batchSize confirm isNew
          { st1 with batchNumber := st1.batchNumber + 1, batchInserted := 0 } rest
      else syncRun batchSize confirm isNew st1 rest

/-- `save_to_cloud(listings)` (sniper_engine.py lines 650-808), modelled as
the run of its per-listing loop from the zeroed counters. -/
def save_to_cloud (batchSize : ℤ) (confirm : ℕ → Bool) (isNew : ℕ → Bool)
    (listings : List Listing) : Except PyErr SyncState :=
  syncRun batchSize confirm isNew initSyncState listings

/-- One page fetch as seen by the cursor-mode loops: `Option.none` models
`_post_with_retry`/`resp.json()` raising, otherwise the page's
`len(result["data"])` and raw `totalData` value. -/
structure PageData where
  rows : ℕ
  totalData : PyVal

/-- Configuration knobs of the cursor-mode fetch loops. -/
structure CursorCfg where
  pageSize : ℕ
  onePageOnly : Bool
  skipFailedPages : Bool
  maxSkipChain : ℕ

/-- State of a cursor-mode category scan.  `cursor` is the persisted
progress value (`regular_progress[label]` / `auction_state["page"]`);
`writes` records every value assigned to it, tagged `true` when the
assignment follows a successfully processed page and `false` when it is a
skip-failed-page assignment. -/
structure ScanState where
  page : ℕ
  failures : ℕ
  window : PageWindow
  cursor : ℕ
  writes : List (ℕ × Bool)

/-- The cursor-mode (unplanned) fetch loop shared by
`fetch_regular_assets` (sniper_engine.py lines 470-531) and
`fetch_auction_assets` (lines 572-625); the two loops are textually
identical in everything modelled here.  `fetch p` is the outcome of
fetching page `p`.  The Python loop is `while True`; `fuel` bounds the
number of modelled iterations (every theorem below holds for all fuels). -/
def cursorScan (cfg : CursorCfg) (fetch : ℕ → Option PageData) :
    ℕ → ScanState → ScanState
  | 0, st => st
  | fuel + 1, st =>
    if ¬ st.window.allow_next then st
    else
      match fetch st.page with
      | Option.none =>
        if cfg.skipFailedPages then
          if cfg.maxSkipChain < st.failures + 1 then st
          else cursorScan cfg fetch fuel
            { st with
              failures := st.failures + 1
              cursor := st.page
              writes := st.writes ++ [(st.page, false)]
              page := st.page + 1 }
        else st
      | Option.some d =>
        if d.rows = 0 then st
        else
          let st1 : ScanState :=
            { st with
              cursor := st.page
              writes := st.writes ++ [(st.page, true)]
              window := st.window.mark_complete
              failures := 0 }
          if cfg.onePageOnly then st1
          else if st1.window.exhausted then st1
          else
            let total_data := to_float d.totalData Option.none
            if (total_data.getD 0 ≠ 0 ∧ total_data.getD 0 ≤ ((st1.page * cfg.pageSize : ℕ) : ℚ)) then st1
            else if d.rows < cfg.pageSize then st1
            else cursorScan cfg fetch fuel { st1 with page := st1.page + 1 }

/-- Entry into cursor mode: `page_number = max(1, cursor + 1)` with zero
failures and an empty write trace. -/
def fetchCursorMode (cfg : CursorCfg) (fetch : ℕ → Option PageData)
    (c0 : ℕ) (w : PageWindow) (fuel : ℕ) : ScanState :=
  cursorScan cfg fetch fuel
    { page := max 1 (c0 + 1), failures := 0, window := w, cursor := c0, writes := [] }

/-- The three `randint` draws of `calculate_rating`:
`randint(4,10) × randint(5,10) × randint(6,10)`. -/
def randDraws : Finset (ℤ × ℤ × ℤ) :=
  (Finset.Icc 4 10) ×ˢ ((Finset.Icc 5 10) ×ˢ (Finset.Icc 6 10))

/-- All transport sub-scores `calculate_rating` can return. -/
def transportOutcomes (price size lat lon : ℚ) : Finset ℤ :=
  randDraws.image (fun x => (calculate_rating price size lat lon x.1 x.2.1 x.2.2).transport)

/-- All food sub-scores `calculate_rating` can return. -/
def foodOutcomes (price size lat lon : ℚ) : Finset ℤ :=
  randDraws.image (fun x => (calculate_rating price size lat lon x.1 x.2.1 x.2.2).food)

/-- All safety sub-scores `calculate_rating` can return. -/
def safetyOutcomes (price size lat lon : ℚ) : Finset ℤ :=
  randDraws.image (fun x => (calculate_rating price size lat lon x.1 x.2.1 x.2.2).safety)

/-- A value that is falsy or a string (what the `", ".join` call sites
tolerate without a `TypeError`). -/
def strOrFalsy (v : PyVal) : Bool := !v.truthy || v.isStr

/-- Specification of the listings `save_to_cloud` upserts: first occurrence
of each truthy url, given the urls already seen. -/
def dedupFilter (seen : List PyVal) : List Listing → List Listing
  | [] => []
  | it :: rest =>
    if ¬ it.url.truthy then dedupFilter seen rest
    else if seen.any (fun v => pyEq v it.url) then dedupFilter seen rest
    else it :: dedupFilter (it.url :: seen) rest

/-- The first `CATEGORY_CONFIGS` entry, used by concrete witnesses. -/
def generalConfig : CategoryConfig := ⟨"General Feed", [], "Mixed", "standard"⟩

/-- A concrete listing used by witnesses. -/
def sampleListing (u : PyVal) (ttl : String) : Listing :=
  { source := .str "BAM"
    title := .str ttl
    price := 0
    size := 0
    lat := 13.7
    lon := 100.5
    url := u
    location := .str "Unknown"
    description := .none
    contact := .none
    bank := .str "BAM"
    images := []
    metrics := calculate_rating 0 0 13.7 100.5 4 5 6
    property_type := .str "Mixed"
    sale_channel := .str "standard"
    bedrooms := Option.none
    bathrooms := Option.none
    rooms := Option.none }

/-- End state of the two-duplicate witness run of `save_to_cloud`. -/
def dupWitnessState : SyncState :=
  { seen := [.str "https://example/a"]
    duplicatesSkipped := 1
    processed := 1
    newTotal := 1
    batchInserted := 1
    batchNumber := 1
    aborted := false
    writes := [sampleListing (.str "https://example/a") "first"] }

theorem calculate_rating_transport (price size lat lon : ℚ) (t f s : ℤ) :
    (calculate_rating price size lat lon t f s).transport = t := rfl

theorem calculate_rating_food (price size lat lon : ℚ) (t f s : ℤ) :
    (calculate_rating price size lat lon t f s).food = f := rfl

theorem calculate_rating_safety (price size lat lon : ℚ) (t f s : ℤ) :
    (calculate_rating price size lat lon t f s).safety = s := rfl

/-- C2: for a previous snapshot with page_count 5 and a current snapshot
with page_count 8, with head_refresh_pages 2 and tail_recheck_pages 3, the
delta plan generator returns exactly the sorted page list [1,2,6,7,8]
(head pages, tail pages and the grown range, each page once). -/
theorem plan_growth_5_to_8 :
    _compute_plan_pages 2 3 ⟨"regular", "General Feed", 96, 8⟩
      (Option.some ⟨"regular", "General Feed", 60, 5⟩) = [1, 2, 6, 7, 8] := by
  decide

/-- C3: for a previous snapshot with page_count 10 and a current snapshot
with page_count 4, with head_refresh_pages 2 and tail_recheck_pages 3, the
delta plan generator returns exactly [1,2,3,4]: head pages, tail pages and
the shrink-tail of the last min(4, 6) = 4 pages, unioned. -/
theorem plan_shrink_10_to_4 :
    _compute_plan_pages 2 3 ⟨"regular", "General Feed", 48, 4⟩
      (Option.some ⟨"regular", "General Feed", 120, 10⟩) = [1, 2, 3, 4] := by
  decide

/-- C8 counterexample: a food sub-score of 4 is never produced by
`calculate_rating` (the code draws `randint(5, 10)` for food), refuting
the claim that every value of [4,10] is attainable for the food
sub-score. -/
theorem food_score_four_unattainable :
    (4 : ℤ) ∉ foodOutcomes 1000000 50 13.7 100.5 := by
  intro h
  obtain ⟨x, hx, hfx⟩ := Finset.mem_image.mp h
  rw [calculate_rating_food] at hfx
  simp only [randDraws, Finset.mem_product, Finset.mem_Icc] at hx
  omega

/-- C8 (amended): the sub-scores of `calculate_rating` are randomized
placeholders whose attainable values are exactly [4,10] for transport,
exactly [5,10] for food and exactly [6,10] for safety, for every input. -/
theorem rating_subscore_ranges (price size lat lon : ℚ) :
    transportOutcomes price size lat lon = Finset.Icc 4 10 ∧
    foodOutcomes price size lat lon = Finset.Icc 5 10 ∧
    safetyOutcomes price size lat lon = Finset.Icc 6 10 := by
  refine ⟨?_, ?_, ?_⟩ <;> ext v
  · simp only [transportOutcomes, randDraws, Finset.mem_image, Finset.mem_product,
      calculate_rating_transport, Finset.mem_Icc]
    constructor
    · rintro ⟨⟨t, f, s⟩, ⟨ht, _, _⟩, rfl⟩
      exact ht
    · intro hv
      exact ⟨⟨v, 5, 6⟩, ⟨hv, by norm_num, by norm_num⟩, rfl⟩
  · simp only [foodOutcomes, randDraws, Finset.mem_image, Finset.mem_product,
      calculate_rating_food, Finset.mem_Icc]
    constructor
    · rintro ⟨⟨t, f, s⟩, ⟨_, hf, _⟩, rfl⟩
      exact hf
    · intro hv
      exact ⟨⟨4, v, 6⟩, ⟨by norm_num, hv, by norm_num⟩, rfl⟩
  · simp only [safetyOutcomes, randDraws, Finset.mem_image, Finset.mem_product,
      calculate_rating_safety, Finset.mem_Icc]
    constructor
    · rintro ⟨⟨t, f, s⟩, ⟨_, _, hs⟩, rfl⟩
      exact hs
    · intro hv
      exact ⟨⟨4, 5, v⟩, ⟨by norm_num, by norm_num, hv⟩, rfl⟩

/-- C10: a `PageWindow` built from a falsy or non-positive target is
unbounded: after any number of `mark_complete` calls, `allow_next` is
still true, `exhausted` is still false and `processed` is still 0. -/
theorem page_window_unbounded (t : Option ℤ)
    (h : t = Option.none ∨ ∃ v, t = Option.some v ∧ v ≤ 0) (n : ℕ) :
    (PageWindow.mark_complete^[n] (PageWindow.init t)).allow_next = true ∧
    (PageWindow.mark_complete^[n] (PageWindow.init t)).exhausted = false ∧
    (PageWindow.mark_complete^[n] (PageWindow.init t)).processed = 0 := by
  have hinit : PageWindow.init t = ⟨Option.none, 0⟩ := by
    rcases h with rfl | ⟨v, rfl, hv⟩
    · rfl
    · simp [PageWindow.init, not_lt.mpr hv]
  have hfix : PageWindow.mark_complete^[n] (PageWindow.init t) = ⟨Option.none, 0⟩ := by
    rw [hinit]
    exact Function.iterate_fixed rfl n
  rw [hfix]
  exact ⟨rfl, rfl, rfl⟩

/-- Witness for C10 at the concrete target 0 and three completions. -/
theorem page_window_unbounded_witness :
    (PageWindow.mark_complete^[3] (PageWindow.init (Option.some 0))).allow_next = true ∧
    (PageWindow.mark_complete^[3] (PageWindow.init (Option.some 0))).exhausted = false ∧
    (PageWindow.mark_complete^[3] (PageWindow.init (Option.some 0))).processed = 0 :=
  page_window_unbounded (Option.some 0) (Or.inr ⟨0, rfl, le_refl 0⟩) 3

theorem retry_all_fail_aux (M : ℕ) (backoff : ℚ) (respond : ℕ → HttpOutcome)
    (hresp : ∀ k, respond k = .httpError (Option.some 503)) :
    ∀ d a, 1 ≤ a → a ≤ M → M - a = d →
    _post_with_retry respond M RETRYABLE_STATUS_CODES backoff a =
      (M - a + 1, (List.range (M - a)).map (fun k => backoff ^ (a - 1 + k)), .raised) := by
  intro d
  induction d with
  | zero =>
    intro a ha1 haM hd
    have haM' : a = M := by omega
    rw [_post_with_retry, hresp a]
    simp only [RETRYABLE_STATUS_CODES]
    rw [dif_neg]
    · simp [hd]
    · rintro ⟨-, hlt⟩
      omega
  | succ d ih =>
    intro a ha1 haM hd
    have hlt : a < M := by omega
    rw [_post_with_retry, hresp a]
    have hrest := ih (a + 1) (by omega) (by omega) (by omega)
    simp only [RETRYABLE_STATUS_CODES] at hrest ⊢
    rw [dif_pos ⟨by decide, hlt⟩, hrest]
    refine Prod.ext (by simp; omega) (Prod.ext ?_ rfl)
    show backoff ^ (a - 1) :: List.map (fun k => backoff ^ (a + 1 - 1 + k)) (List.range (M - (a + 1))) =
      List.map (fun k => backoff ^ (a - 1 + k)) (List.range (M - a))
    have hr : M - a = (M - (a + 1)) + 1 := by omega
    rw [hr, List.range_succ_eq_map, List.map_cons, List.map_map, Nat.add_zero]
    refine congrArg₂ _ rfl (List.map_congr_left ?_)
    intro k _
    simp only [Function.comp_apply]
    congr 1
    omega

/-- C1: when every attempt fails with HTTP 503 (a retryable status),
`_post_with_retry` issues exactly `MAX_RETRIES` POST attempts, sleeping
`RETRY_BACKOFF^(attempt-1)` seconds between consecutive attempts
(exponents 0 .. MAX_RETRIES-2), and after the MAX_RETRIES-th failed
attempt re-raises instead of retrying.  `M` is `MAX_RETRIES`, which the
code clamps to at least 1. -/
theorem retry_always_503 (M : ℕ) (hM : 1 ≤ M) (backoff : ℚ)
    (respond : ℕ → HttpOutcome)
    (hresp : ∀ k, respond k = .httpError (Option.some 503)) :
    _post_with_retry respond M RETRYABLE_STATUS_CODES backoff 1 =
      (M, (List.range (M - 1)).map (fun k => backoff ^ k), .raised) := by
  have h := retry_all_fail_aux M backoff respond hresp (M - 1) 1 le_rfl hM rfl
  rw [h]
  refine Prod.ext (by simp; omega) (Prod.ext ?_ rfl)
  show List.map _ _ = _
  apply List.map_congr_left
  intro k _
  norm_num

/-- Witness for C1 with the default MAX_RETRIES = 5 and backoff 2.0:
exactly 5 attempts, sleeps 1, 2, 4, 8 seconds, then the error is raised. -/
theorem retry_always_503_witness :
    _post_with_retry (fun _ => .httpError (Option.some 503)) 5 RETRYABLE_STATUS_CODES 2 1 =
      (5, [1, 2, 4, 8], .raised) := by
  rw [retry_always_503 5 (by norm_num) 2 (fun _ => .httpError (Option.some 503)) (fun _ => rfl)]
  decide

theorem mem_insertKey (z x : ℤ) (l : List ℤ) : z ∈ insertKey x l ↔ z = x ∨ z ∈ l := by
  induction l with
  | nil => simp [insertKey]
  | cons y ys ih =>
    simp only [insertKey]
    split_ifs with h1 h2
    · simp
    · subst h2
      simp only [List.mem_cons]
      tauto
    · simp only [List.mem_cons, ih]
      tauto

theorem sorted_insertKey (x : ℤ) (l : List ℤ) (h : List.Sorted (· < ·) l) :
    List.Sorted (· < ·) (insertKey x l) := by
  induction l with
  | nil => simp [insertKey]
  | cons y ys ih =>
    rw [List.sorted_cons] at h
    simp only [insertKey]
    split_ifs with h1 h2
    · rw [List.sorted_cons]
      refine ⟨?_, List.sorted_cons.mpr h⟩
      intro b hb
      rcases List.mem_cons.mp hb with rfl | hb
      · exact h1
      · exact lt_trans h1 (h.1 b hb)
    · exact List.sorted_cons.mpr h
    · rw [List.sorted_cons]
      refine ⟨?_, ih h.2⟩
      intro b hb
      rcases (mem_insertKey b x ys).mp hb with rfl | hb
      · omega
      · exact h.1 b hb

theorem sorted_sortKeys (l : List ℤ) : List.Sorted (· < ·) (sortKeys l) := by
  induction l with
  | nil => simp [sortKeys]
  | cons a l ih => exact sorted_insertKey a (sortKeys l) ih

theorem mem_sortKeys (z : ℤ) (l : List ℤ) : z ∈ sortKeys l ↔ z ∈ l := by
  induction l with
  | nil => simp [sortKeys]
  | cons a l ih =>
    show z ∈ insertKey a (sortKeys l) ↔ _
    rw [mem_insertKey, ih, List.mem_cons]

theorem mem_rangeSet_le {s e x : ℤ} (h : x ∈ rangeSet s e) : s ≤ x := by
  rw [rangeSet, List.mem_map] at h
  obtain ⟨i, hi, rfl⟩ := h
  have h0 : (0 : ℤ) ≤ (i : ℤ) := Int.natCast_nonneg i
  linarith

/-- C7: for every pair of previous (possibly absent) and current snapshots
and every head/tail configuration, the plan pages are a strictly
increasing (hence duplicate-free) sequence of positive integers, and they
are empty whenever the current snapshot's page_count is 0. -/
theorem plan_pages_invariant (head tail : ℕ) (cur : FeedSnapshot) (prev : Option FeedSnapshot) :
    List.Chain' (· < ·) (_compute_plan_pages head tail cur prev) ∧
    (∀ x ∈ _compute_plan_pages head tail cur prev, 0 < x) ∧
    (cur.page_count = 0 → _compute_plan_pages head tail cur prev = []) := by
  refine ⟨?_, ?_, ?_⟩
  · rw [List.chain'_iff_pairwise]
    simp only [_compute_plan_pages]
    split
    · exact List.Pairwise.nil
    · exact sorted_sortKeys _
  · intro x hx
    simp only [_compute_plan_pages] at hx
    split at hx
    · simp at hx
    · rw [mem_sortKeys] at hx
      simp only [List.mem_append] at hx
      rcases hx with (hx | hx) | hx
      · split_ifs at hx with h
        · exact lt_of_lt_of_le one_pos (mem_rangeSet_le hx)
        · simp at hx
      · split_ifs at hx with h
        · have h1 := mem_rangeSet_le hx
          have h2 : (1 : ℤ) ≤ max 1 (max 0 cur.page_count - min (max 0 cur.page_count) (tail : ℤ) + 1) :=
            le_max_left _ _
          omega
        · simp at hx
      · rcases prev with _ | p
        · simp at hx
        · simp only at hx
          split_ifs at hx with h1 h2 h3 h4
          · have hm := mem_rangeSet_le hx
            have h0 : (0 : ℤ) ≤ max 0 p.page_count := le_max_left _ _
            omega
          · simp at hx
          · have hm := mem_rangeSet_le hx
            have h2' : (1 : ℤ) ≤ max 1 (max 0 cur.page_count - min (max 0 cur.page_count) (2 * (tail : ℤ)) + 1) :=
              le_max_left _ _
            omega
          · simp at hx
          · simp at hx
          · simp at hx
  · intro h
    simp [_compute_plan_pages, h]

/-- Witness for C7 at a concrete zero-page snapshot and a concrete
non-trivial pair of snapshots. -/
theorem plan_pages_invariant_witness :
    (List.Chain' (· < ·) (_compute_plan_pages 2 3 ⟨"regular", "Condos", 0, 0⟩ Option.none) ∧
      (∀ x ∈ _compute_plan_pages 2 3 ⟨"regular", "Condos", 0, 0⟩ Option.none, 0 < x) ∧
      ((⟨"regular", "Condos", 0, 0⟩ : FeedSnapshot).page_count = 0 →
        _compute_plan_pages 2 3 ⟨"regular", "Condos", 0, 0⟩ Option.none = [])) :=
  plan_pages_invariant 2 3 ⟨"regular", "Condos", 0, 0⟩ Option.none

theorem mem_of_mem_getLast? {α : Type} {l : List α} {x : α} (h : x ∈ l.getLast?) : x ∈ l := by
  obtain ⟨hne, rfl⟩ := List.mem_getLast?_eq_getLast h
  exact List.getLast_mem hne

theorem chain_le_append_singleton (l : List ℕ) (a : ℕ)
    (hc : List.Chain' (· ≤ ·) l) (ha : ∀ x ∈ l, x ≤ a) :
    List.Chain' (· ≤ ·) (l ++ [a]) := by
  refine List.Chain'.append hc (List.chain'_singleton a) ?_
  intro x hx y hy
  simp only [List.head?_cons, Option.mem_def, Option.some.injEq] at hy
  subst hy
  exact ha x (mem_of_mem_getLast? hx)

theorem cursorScan_cursor_mono (cfg : CursorCfg) (fetch : ℕ → Option PageData) (c0 : ℕ) :
    ∀ (fuel : ℕ) (st : ScanState),
    List.Chain' (· ≤ ·) (c0 :: st.writes.map Prod.fst) →
    (∀ x ∈ c0 :: st.writes.map Prod.fst, x ≤ st.page) →
    List.Chain' (· ≤ ·) (c0 :: (cursorScan cfg fetch fuel st).writes.map Prod.fst) := by
  intro fuel
  induction fuel with
  | zero =>
    intro st h1 _
    exact h1
  | succ fuel ih =>
    intro st h1 h2
    have hchain : ∀ b : Bool,
        List.Chain' (· ≤ ·) (c0 :: (st.writes ++ [(st.page, b)]).map Prod.fst) := by
      intro b
      rw [List.map_append, ← List.cons_append]
      exact chain_le_append_singleton _ _ h1 h2
    have hbound : ∀ (b : Bool) (k : ℕ), st.page ≤ k →
        ∀ x ∈ c0 :: (st.writes ++ [(st.page, b)]).map Prod.fst, x ≤ k := by
      intro b k hk x hx
      rw [List.map_append, ← List.cons_append] at hx
      rcases List.mem_append.mp hx with hx | hx
      · exact le_trans (h2 x hx) hk
      · rcases List.mem_singleton.mp hx with rfl
        exact hk
    rw [cursorScan]
    by_cases hw : st.window.allow_next
    · simp only [hw, not_true_eq_false, if_false]
      cases hf : fetch st.page with
      | none =>
        simp only
        split_ifs with hskip hchainlim
        · exact h1
        · exact ih _ (hchain false) (hbound false (st.page + 1) (Nat.le_succ _))
        · exact h1
      | some d =>
        simp only
        split_ifs with hrows hone hexh htot hshort
        · exact h1
        · exact hchain true
        · exact hchain true
        · exact hchain true
        · exact hchain true
        · exact ih _ (hchain true) (hbound true (st.page + 1) (Nat.le_succ _))
    · have hw' : (¬ st.window.allow_next = true) = True := by simp [hw]
      rw [if_pos]
      · exact h1
      · simpa using hw

/-- C6: in cursor (unplanned) fetch mode, the persisted progress cursor
(`ProgressState.regular[category]` in `fetch_regular_assets`,
`ProgressState.auction.page` in `fetch_auction_assets`) is monotonically
non-decreasing: starting from the loaded cursor value `c0`, the sequence
of values assigned to it is a non-decreasing chain, so in particular every
assignment made after a successfully processed page writes a value greater
than or equal to the value the cursor held before. -/
theorem cursor_progress_monotone (cfg : CursorCfg) (fetch : ℕ → Option PageData)
    (c0 : ℕ) (w : PageWindow) (fuel : ℕ) :
    List.Chain' (· ≤ ·) (c0 :: (fetchCursorMode cfg fetch c0 w fuel).writes.map Prod.fst) := by
  apply cursorScan_cursor_mono
  · exact List.chain'_singleton c0
  · intro x hx
    simp only [List.map_nil, List.mem_singleton] at hx
    rw [hx]
    exact le_trans (Nat.le_succ c0) (le_max_right 1 (c0 + 1))

theorem pyEq_refl_hashable (v : PyVal) (h : hashable v = true) : pyEq v v = true := by
  cases v <;> simp_all [pyEq, PyVal.toNum?, hashable]

theorem pyEq_symm (a b : PyVal) (h : pyEq a b = true) : pyEq b a = true := by
  cases a <;> cases b <;> simp_all [pyEq, PyVal.toNum?]

theorem pyEq_trans (a b c : PyVal) (hab : pyEq a b = true) (hbc : pyEq b c = true) :
    pyEq a c = true := by
  cases a <;> cases b <;> cases c <;> simp_all [pyEq, PyVal.toNum?]

theorem toNum_truthy (v : PyVal) (q : ℚ) (h : v.toNum? = Option.some q) :
    v.truthy = decide (q ≠ 0) := by
  cases v <;> simp_all [PyVal.toNum?, PyVal.truthy]
  case bool b =>
    cases b <;> simp_all
    rw [← h]
    norm_num
  case int n =>
    rw [← h, Int.cast_eq_zero]

theorem pyEq_truthy (a b : PyVal) (h : pyEq a b = true) : a.truthy = b.truthy := by
  cases ha : a.toNum? with
  | some x =>
    cases hb : b.toNum? with
    | some y =>
      have hxy : x = y := by
        simp only [pyEq, ha, hb] at h
        exact of_decide_eq_true h
      rw [toNum_truthy a x ha, toNum_truthy b y hb, hxy]
    | none =>
      simp only [pyEq, ha, hb] at h
      exact Bool.noConfusion h
  | none =>
    cases hb : b.toNum? with
    | some y =>
      simp only [pyEq, ha, hb] at h
      exact Bool.noConfusion h
    | none =>
      cases a <;> cases b <;> simp_all [pyEq, PyVal.toNum?, PyVal.truthy]

theorem syncRun_ok_spec (bs : ℤ) (confirm isNew : ℕ → Bool) :
    ∀ (l : List Listing) (st st' : SyncState),
    syncRun bs confirm isNew st l = .ok st' → st'.aborted = false →
    st'.writes = st.writes ++ dedupFilter st.seen l ∧
    st'.seen = (List.map (fun it => it.url) (dedupFilter st.seen l)).reverse ++ st.seen ∧
    st'.processed = st.processed + (dedupFilter st.seen l).length ∧
    st'.duplicatesSkipped + (dedupFilter st.seen l).length =
      st.duplicatesSkipped + l.countP (fun it => it.url.truthy) ∧
    (∀ it ∈ l, it.url.truthy = true → hashable it.url = true) := by
  intro l
  induction l with
  | nil =>
    intro st st' hrun hna
    rw [syncRun] at hrun
    injection hrun with h
    subst h
    simp [dedupFilter]
  | cons item rest ih =>
    intro st st' hrun hna
    rw [syncRun] at hrun
    split at hrun
    case isTrue ht =>
      have ht' : item.url.truthy = false := by simpa using ht
      obtain ⟨hw, hs, hp, hd, hh⟩ := ih st st' hrun hna
      rw [dedupFilter, if_pos ht] at *
      refine ⟨hw, hs, hp, ?_, ?_⟩
      · rw [List.countP_cons, ht']
        simpa using hd
      · intro it hit htr
        rcases List.mem_cons.mp hit with rfl | hit
        · rw [ht'] at htr
          exact Bool.noConfusion htr
        · exact hh it hit htr
    case isFalse ht =>
      have ht' : item.url.truthy = true := by simpa using ht
      split at hrun
      case isTrue hh0 =>
        exact absurd hrun (by simp)
      case isFalse hh0 =>
        have hh0' : hashable item.url = true := by simpa using hh0
        split at hrun
        case isTrue hseen =>
          obtain ⟨hw, hs, hp, hd, hh⟩ := ih _ st' hrun hna
          rw [dedupFilter, if_neg ht, if_pos hseen] at *
          refine ⟨hw, hs, hp, ?_, ?_⟩
          · simp only [List.countP_cons, ht']
            simp only [SyncState.duplicatesSkipped] at hd
            simp at hd ⊢
            omega
          · intro it hit htr
            rcases List.mem_cons.mp hit with rfl | hit
            · exact hh0'
            · exact hh it hit htr
        case isFalse hseen =>
          split at hrun
          case isTrue hph =>
            exact absurd hrun (by simp)
          case isFalse hph =>
            have hded : dedupFilter st.seen (item :: rest) =
                item :: dedupFilter (item.url :: st.seen) rest := by
              rw [dedupFilter, if_neg ht, if_neg hseen]
            have hfinish : ∀ stR : SyncState,
                stR.seen = item.url :: st.seen → stR.writes = st.writes ++ [item] →
                stR.processed = st.processed + 1 →
                stR.duplicatesSkipped = st.duplicatesSkipped →
                syncRun bs confirm isNew stR rest = .ok st' →
                st'.writes = st.writes ++ dedupFilter st.seen (item :: rest) ∧
                st'.seen = (List.map (fun it => it.url) (dedupFilter st.seen (item :: rest))).reverse ++ st.seen ∧
                st'.processed = st.processed + (dedupFilter st.seen (item :: rest)).length ∧
                st'.duplicatesSkipped + (dedupFilter st.seen (item :: rest)).length =
                  st.duplicatesSkipped + (item :: rest).countP (fun it => it.url.truthy) ∧
                (∀ it ∈ item :: rest, it.url.truthy = true → hashable it.url = true) := by
              intro stR h1 h2 h3 h4 hr
              obtain ⟨hw, hs, hp, hd, hh⟩ := ih stR st' hr hna
              rw [h1] at hw hs hp hd
              rw [h2] at hw
              rw [h3] at hp
              rw [h4] at hd
              refine ⟨?_, ?_, ?_, ?_, ?_⟩
              · rw [hded, hw, List.append_assoc]
                rfl
              · rw [hded, hs, List.map_cons, List.reverse_cons, List.append_assoc]
                rfl
              · rw [hded, hp, List.length_cons]
                omega
              · rw [hded, List.countP_cons, ht', List.length_cons]
                simp only [if_true, eq_self_iff_true]
                omega
              · intro it hit htr
                rcases List.mem_cons.mp hit with rfl | hit
                · exact hh0'
                · exact hh it hit htr
            dsimp only at hrun
            split at hrun <;> rename_i hins
            · split at hrun
              · split at hrun
                · injection hrun with h
                  subst h
                  simp at hna
                · refine hfinish _ ?_ ?_ ?_ ?_ hrun <;> rfl
              · refine hfinish _ ?_ ?_ ?_ ?_ hrun <;> rfl
            · split at hrun
              · split at hrun
                · injection hrun with h
                  subst h
                  simp at hna
                · refine hfinish _ ?_ ?_ ?_ ?_ hrun <;> rfl
              · refine hfinish _ ?_ ?_ ?_ ?_ hrun <;> rfl

theorem dedupFilter_sublist (l : List Listing) :
    ∀ seen, List.Sublist (dedupFilter seen l) l := by
  induction l with
  | nil => intro seen; exact List.Sublist.refl []
  | cons item rest ih =>
    intro seen
    rw [dedupFilter]
    split
    · exact (ih seen).cons item
    · split
      · exact (ih seen).cons item
      · exact (ih (item.url :: seen)).cons₂ item

theorem dedupFilter_truthy (l : List Listing) :
    ∀ seen, ∀ w ∈ dedupFilter seen l, w.url.truthy = true := by
  induction l with
  | nil => intro seen w hw; simp [dedupFilter] at hw
  | cons item rest ih =>
    intro seen w hw
    rw [dedupFilter] at hw
    split at hw
    · exact ih seen w hw
    · split at hw
      · exact ih seen w hw
      · rcases List.mem_cons.mp hw with rfl | hw
        · rename_i h1 _
          simpa using h1
        · exact ih (item.url :: seen) w hw

theorem dedupFilter_count_zero (u : PyVal) (l : List Listing) :
    ∀ seen, seen.any (fun v => pyEq v u) = true →
    (dedupFilter seen l).countP (fun w => pyEq w.url u) = 0 := by
  induction l with
  | nil => intro seen _; rfl
  | cons item rest ih =>
    intro seen hany
    rw [dedupFilter]
    split
    · exact ih seen hany
    · split
      · exact ih seen hany
      · rename_i h1 h2
        have hne : pyEq item.url u = false := by
          by_contra hcon
          rw [Bool.not_eq_false] at hcon
          obtain ⟨v, hv, hvu⟩ := List.any_eq_true.mp hany
          have hvi : pyEq v item.url = true := pyEq_trans v u item.url hvu (pyEq_symm _ _ hcon)
          have hgot : seen.any (fun v => pyEq v item.url) = true := List.any_eq_true.mpr ⟨v, hv, hvi⟩
          simp [hgot] at h2
        rw [List.countP_cons_of_neg]
        · exact ih (item.url :: seen) (by simp [List.any_cons, hany])
        · simp [hne]

theorem dedupFilter_count_one (u : PyVal) (hu : u.truthy = true) (l : List Listing) :
    ∀ seen, seen.any (fun v => pyEq v u) = false →
    (∃ it ∈ l, pyEq it.url u = true) →
    (dedupFilter seen l).countP (fun w => pyEq w.url u) = 1 := by
  induction l with
  | nil =>
    intro seen _ hex
    simp at hex
  | cons item rest ih =>
    intro seen hany hex
    rw [dedupFilter]
    split
    · rename_i h1
      have hne : pyEq item.url u = false := by
        by_contra hcon
        rw [Bool.not_eq_false] at hcon
        have heq := pyEq_truthy item.url u hcon
        rw [hu] at heq
        simp [heq] at h1
      refine ih seen hany ?_
      obtain ⟨it, hit, hequ⟩ := hex
      rcases List.mem_cons.mp hit with rfl | hit
      · rw [hne] at hequ
        exact Bool.noConfusion hequ
      · exact ⟨it, hit, hequ⟩
    · split
      · rename_i h1 h2
        have hne : pyEq item.url u = false := by
          by_contra hcon
          rw [Bool.not_eq_false] at hcon
          obtain ⟨v, hv, hvi⟩ := List.any_eq_true.mp h2
          have hvu : pyEq v u = true := pyEq_trans v item.url u hvi hcon
          have hgot : seen.any (fun v => pyEq v u) = true := List.any_eq_true.mpr ⟨v, hv, hvu⟩
          rw [hgot] at hany
          exact Bool.noConfusion hany
        refine ih seen hany ?_
        obtain ⟨it, hit, hequ⟩ := hex
        rcases List.mem_cons.mp hit with rfl | hit
        · rw [hne] at hequ
          exact Bool.noConfusion hequ
        · exact ⟨it, hit, hequ⟩
      · by_cases hcase : pyEq item.url u = true
        · rw [List.countP_cons_of_pos]
          · rw [dedupFilter_count_zero u rest (item.url :: seen)
              (List.any_eq_true.mpr ⟨item.url, List.mem_cons_self _ _, hcase⟩)]
          · simp [hcase]
        · have hne : pyEq item.url u = false := by simpa using hcase
          rw [List.countP_cons_of_neg]
          · refine ih (item.url :: seen) ?_ ?_
            · simp [List.any_cons, hne, hany]
            · obtain ⟨it, hit, hequ⟩ := hex
              rcases List.mem_cons.mp hit with rfl | hit
              · rw [hne] at hequ
                exact Bool.noConfusion hequ
              · exact ⟨it, hit, hequ⟩
          · simp [hne]

theorem length_countP_split {α : Type} (q : α → Bool) (l : List α) :
    l.length = l.countP q + l.countP (fun x => !q x) := by
  induction l with
  | nil => rfl
  | cons x l ih =>
    rw [List.length_cons, List.countP_cons, List.countP_cons, ih]
    cases hq : q x <;> simp [hq] <;> omega

theorem countP_and_split {α : Type} (p q : α → Bool) (l : List α) :
    l.countP p = l.countP (fun x => p x && q x) + l.countP (fun x => p x && !q x) := by
  induction l with
  | nil => rfl
  | cons x l ih =>
    rw [List.countP_cons, List.countP_cons, List.countP_cons, ih]
    cases hp : p x <;> cases hq : q x <;> simp [hp, hq] <;> omega

/-- C5: when the run completes without an operator abort, a listing whose
url repeats one seen earlier in the run is counted as a duplicate-skip and
never written: exactly one upsert is executed for that url, `processed`
counts exactly the executed upserts (so the repeat contributes nothing to
it), the counters balance, and at least one duplicate is recorded. -/
theorem storage_duplicate_suppression (bs : ℤ) (confirm isNew : ℕ → Bool)
    (pre mid post : List Listing) (a b : Listing) (st' : SyncState)
    (hab : pyEq a.url b.url = true) (htr : a.url.truthy = true)
    (hrun : save_to_cloud bs confirm isNew (pre ++ a :: mid ++ b :: post) = .ok st')
    (hna : st'.aborted = false) :
    st'.writes.countP (fun w => pyEq w.url b.url) = 1 ∧
    st'.processed = st'.writes.length ∧
    st'.duplicatesSkipped + st'.writes.length =
      (pre ++ a :: mid ++ b :: post).countP (fun it => it.url.truthy) ∧
    1 ≤ st'.duplicatesSkipped := by
  set l := pre ++ a :: mid ++ b :: post with hl
  obtain ⟨hw, hs, hp, hd, hh⟩ :=
    syncRun_ok_spec bs confirm isNew l initSyncState st' hrun hna
  simp only [initSyncState] at hw hs hp hd
  rw [List.nil_append] at hw
  have hmema : a ∈ l := by
    rw [hl]; simp
  have hmemb : b ∈ l := by
    rw [hl]; simp
  have htrb : b.url.truthy = true := by
    rw [← pyEq_truthy a.url b.url hab, htr]
  have hhashb : hashable b.url = true := hh b hmemb htrb
  have hreflb : pyEq b.url b.url = true := pyEq_refl_hashable b.url hhashb
  have hcount1 : st'.writes.countP (fun w => pyEq w.url b.url) = 1 := by
    rw [hw]
    exact dedupFilter_count_one b.url htrb l [] rfl ⟨a, hmema, hab⟩
  refine ⟨hcount1, ?_, ?_, ?_⟩
  · rw [hp, hw]
    omega
  · rw [hw]
    omega
  · -- at least one duplicate was recorded
    have hDlen : st'.writes.length =
        st'.writes.countP (fun w => pyEq w.url b.url) +
        st'.writes.countP (fun w => !pyEq w.url b.url) :=
      length_countP_split _ _
    have hwl : st'.writes.countP (fun w => !pyEq w.url b.url) =
        st'.writes.countP (fun w => w.url.truthy && !pyEq w.url b.url) := by
      refine List.countP_congr ?_
      intro w hwmem
      have := dedupFilter_truthy l [] w (by rw [← hw]; exact hwmem)
      simp [this]
    have hle : st'.writes.countP (fun w => w.url.truthy && !pyEq w.url b.url) ≤
        l.countP (fun it => it.url.truthy && !pyEq it.url b.url) := by
      rw [hw]
      exact (dedupFilter_sublist l []).countP_le _
    have hsplit : l.countP (fun it => it.url.truthy) =
        l.countP (fun it => it.url.truthy && pyEq it.url b.url) +
        l.countP (fun it => it.url.truthy && !pyEq it.url b.url) :=
      countP_and_split _ _ l
    have htwo : 2 ≤ l.countP (fun it => it.url.truthy && pyEq it.url b.url) := by
      rw [hl]
      simp only [List.countP_append, List.countP_cons, htr, hab, htrb, hreflb,
        Bool.and_self, Bool.true_and, Bool.and_true, if_true, eq_self_iff_true]
      omega
    have hDeq : st'.writes.length =
        1 + st'.writes.countP (fun w => w.url.truthy && !pyEq w.url b.url) := by
      rw [hDlen, hcount1, hwl]
    rw [← hw] at hd
    omega

theorem syncRun_congr_tail (bs : ℤ) (confirm isNew : ℕ → Bool) (l1 l2 : List Listing)
    (h : ∀ st, syncRun bs confirm isNew st l1 = syncRun bs confirm isNew st l2)
    (x : Listing) (st : SyncState) :
    syncRun bs confirm isNew st (x :: l1) = syncRun bs confirm isNew st (x :: l2) := by
  rw [syncRun]
  conv_rhs => rw [syncRun]
  split
  · exact h st
  · split
    · rfl
    · split
      · exact h _
      · split
        · rfl
        · dsimp only
          split
          · split
            · split
              · rfl
              · exact h _
            · exact h _
          · split
            · split
              · rfl
              · exact h _
            · exact h _

theorem syncRun_drop_falsy (bs : ℤ) (confirm isNew : ℕ → Bool) (c : Listing)
    (hurl : c.url.truthy = false) :
    ∀ (pre : List Listing) (post : List Listing) (st : SyncState),
    syncRun bs confirm isNew st (pre ++ c :: post) =
      syncRun bs confirm isNew st (pre ++ post) := by
  intro pre
  induction pre with
  | nil =>
    intro post st
    rw [List.nil_append, List.nil_append, syncRun]
    rw [if_pos]
    simp [hurl]
  | cons x pre ih =>
    intro post st
    rw [List.cons_append, List.cons_append]
    exact syncRun_congr_tail bs confirm isNew _ _ (fun st2 => ih post st2) x st

/-- C9: a listing whose url is missing, `None` or empty is silently
skipped by the storage stage: running `save_to_cloud` on a sequence with
such a listing gives exactly the same outcome (same writes, same
processed/inserted/updated/duplicate counters, same errors) as running it
on the sequence with that listing removed. -/
theorem storage_skips_falsy_url (bs : ℤ) (confirm isNew : ℕ → Bool)
    (pre post : List Listing) (c : Listing) (hurl : c.url.truthy = false) :
    save_to_cloud bs confirm isNew (pre ++ c :: post) =
      save_to_cloud bs confirm isNew (pre ++ post) :=
  syncRun_drop_falsy bs confirm isNew c hurl pre post initSyncState

/-- Witness for C9: a one-listing run with url `None` equals the empty
run. -/
theorem storage_skips_falsy_url_witness :
    save_to_cloud 1000 (fun _ => true) (fun _ => true)
        ([] ++ sampleListing .none "no url" :: []) =
      save_to_cloud 1000 (fun _ => true) (fun _ => true) ([] ++ []) :=
  storage_skips_falsy_url 1000 (fun _ => true) (fun _ => true) [] []
    (sampleListing .none "no url") rfl

/-- Witness for C5 on the concrete two-listing run with a repeated url and
different payloads. -/
theorem storage_duplicate_suppression_witness :
    dupWitnessState.writes.countP
        (fun w => pyEq w.url (sampleListing (.str "https://example/a") "second").url) = 1 ∧
    dupWitnessState.processed = dupWitnessState.writes.length ∧
    dupWitnessState.duplicatesSkipped + dupWitnessState.writes.length =
      (([] : List Listing) ++ sampleListing (.str "https://example/a") "first" ::
        ([] : List Listing) ++ sampleListing (.str "https://example/a") "second" :: []).countP
        (fun it => it.url.truthy) ∧
    1 ≤ dupWitnessState.duplicatesSkipped :=
  storage_duplicate_suppression 1000 (fun _ => true) (fun _ => true) [] [] []
    (sampleListing (.str "https://example/a") "first")
    (sampleListing (.str "https://example/a") "second")
    dupWitnessState rfl rfl rfl rfl

theorem pyOr_none (x : PyVal) : pyOr .none x = x := rfl

theorem rawGet_nil (k : String) : rawGet ([] : RawRecord) k = PyVal.none := rfl

theorem dedupeGo_ok (l : List PyVal) :
    ∀ (seen ded : List PyVal), (∀ v ∈ l, hashable v = true) →
    ∃ out, dedupeGo seen ded l = .ok out := by
  induction l with
  | nil => intro seen ded _; exact ⟨ded, rfl⟩
  | cons url rest ih =>
    intro seen ded hh
    rw [dedupeGo]
    split
    · exact ih seen ded (fun v hv => hh v (List.mem_cons_of_mem url hv))
    · split
      · rename_i hnt hnh
        have := hh url (List.mem_cons_self url rest)
        simp [this] at hnh
      · split
        · exact ih seen ded (fun v hv => hh v (List.mem_cons_of_mem url hv))
        · exact ih (url :: seen) (ded ++ [url]) (fun v hv => hh v (List.mem_cons_of_mem url hv))

theorem dedupe_images_ok (l : List PyVal) (h : ∀ v ∈ l, hashable v = true) :
    ∃ out, dedupe_images l = .ok out :=
  dedupeGo_ok l [] [] h

theorem combine_contact_ok (fr : ℚ → String) (name : PyVal) (phones : List PyVal)
    (h : ∀ p ∈ phones, strOrFalsy p = true) :
    ∃ v, combine_contact fr name phones = .ok v := by
  rw [combine_contact]
  rw [if_neg]
  · dsimp only
    split
    · exact ⟨_, rfl⟩
    · split
      · exact ⟨_, rfl⟩
      · exact ⟨_, rfl⟩
  · intro hany
    obtain ⟨p, hp, hns⟩ := List.any_eq_true.mp hany
    obtain ⟨hpm, hpt⟩ := List.mem_filter.mp hp
    have := h p hpm
    rw [strOrFalsy, hpt] at this
    simp at this
    simp [this] at hns

theorem build_location_ok (fr : ℚ → String) (item : RawRecord)
    (h : ∀ k ∈ ["province", "district", "subDistrict"], strOrFalsy (rawGet item k) = true) :
    ∃ v, build_location fr item = .ok v := by
  rw [build_location]
  rw [if_neg]
  · dsimp only
    split
    · exact ⟨_, rfl⟩
    · split
      · exact ⟨_, rfl⟩
      · split
        · exact ⟨_, rfl⟩
        · exact ⟨_, rfl⟩
  · intro hany
    obtain ⟨p, hp, hns⟩ := List.any_eq_true.mp hany
    obtain ⟨hpm, hpt⟩ := List.mem_filter.mp hp
    have hsf : strOrFalsy p = true := by
      simp only [List.mem_cons, List.mem_singleton] at hpm
      rcases hpm with rfl | rfl | rfl | hfalse
      · exact h "province" (by simp)
      · exact h "district" (by simp)
      · exact h "subDistrict" (by simp)
      · simp at hfalse
    rw [strOrFalsy, hpt] at hsf
    simp at hsf
    simp [hsf] at hns

/-- C4 counterexample: normalization is not total on arbitrary key-value
mappings.  On the raw record `\x7b"map": "x"\x7d` — which is missing the
price, size and coordinate fields — `normalize_regular_item` raises
`AttributeError` (`map_info.get` on a truthy non-dict value,
sniper_engine.py line 323) instead of returning a defaulted listing. -/
theorem normalize_raises_on_nondict_map :
    normalize_regular_item (fun _ => "") 0 0 4 5 6 [("map", PyVal.str "x")] generalConfig =
      .error .attributeError := by
  rfl

/-- C4 (amended): for every raw record missing the price fields
(sellPrice/shockPrice/discountPrice), the size fields
(usableArea/areaMeter/areaWa) and the coordinate fields (map/geoMap),
whose location parts and phone fields are strings or falsy and whose
gathered image entries are hashable, normalization returns a listing with
price 0, size 0 and non-null synthetic coordinates inside the Bangkok
box (lat ∈ [13.7, 13.8], lon ∈ [100.5, 100.6]); without those
well-typedness conditions normalization can raise (see the
counterexample), so it is not total on all raw records. -/
theorem normalize_missing_fields_defaults (fr : ℚ → String) (r1 r2 : ℚ) (t f s : ℤ)
    (config : CategoryConfig) (item : RawRecord)
    (hr1a : 0 ≤ r1) (hr1b : r1 < 1) (hr2a : 0 ≤ r2) (hr2b : r2 < 1)
    (hp1 : rawGet item "sellPrice" = .none) (hp2 : rawGet item "shockPrice" = .none)
    (hp3 : rawGet item "discountPrice" = .none)
    (hs1 : rawGet item "usableArea" = .none) (hs2 : rawGet item "areaMeter" = .none)
    (hs3 : rawGet item "areaWa" = .none)
    (hm1 : rawGet item "map" = .none) (hm2 : rawGet item "geoMap" = .none)
    (hloc : ∀ k ∈ ["province", "district", "subDistrict"], strOrFalsy (rawGet item k) = true)
    (hph : ∀ p ∈ [rawGet item "telephone", rawGet item "workPhone", rawGet item "workPhoneNxt",
      rawGet item "workPhoneConx"], strOrFalsy p = true)
    (himg : ∀ v ∈ gather_images [rawGet item "albumProperty", rawGet item "media",
      rawGet item "albumPackage1", rawGet item "albumPackage2", rawGet item "albumPackage3"],
      hashable v = true) :
    ∃ L, normalize_regular_item fr r1 r2 t f s item config = .ok L ∧
      L.price = 0 ∧ L.size = 0 ∧
      13.7 ≤ L.lat ∧ L.lat ≤ 13.8 ∧ 100.5 ≤ L.lon ∧ L.lon ≤ 100.6 := by
  have hmap : pyOr (rawGet item "map") (pyOr (rawGet item "geoMap") (.dict [])) = .dict [] := by
    rw [hm1, hm2]
    rfl
  obtain ⟨loc, hlocv⟩ := build_location_ok fr item hloc
  obtain ⟨con, hconv⟩ := combine_contact_ok fr
    (pyOr (rawGet item "adminName") (rawGet item "adminNameConx")) _ hph
  have hmapimgs : gather_images [rawGet ([] : RawRecord) "imageUrl",
      rawGet ([] : RawRecord) "imageUrl360", rawGet ([] : RawRecord) "mapImage"] = [] := rfl
  obtain ⟨imgs, himgs⟩ := dedupe_images_ok
    (gather_images [rawGet item "albumProperty", rawGet item "media",
      rawGet item "albumPackage1", rawGet item "albumPackage2",
      rawGet item "albumPackage3"] ++ gather_images [rawGet ([] : RawRecord) "imageUrl",
      rawGet ([] : RawRecord) "imageUrl360", rawGet ([] : RawRecord) "mapImage"])
    (by rw [hmapimgs, List.append_nil]; exact himg)
  simp only [normalize_regular_item, hmap, mapAttr]
  rw [himgs, hlocv, hconv]
  dsimp only
  refine ⟨_, rfl, ?_, ?_, ?_, ?_, ?_, ?_⟩
  · rw [hp1, hp2, hp3, pyOr_none, pyOr_none, pyOr_none]
    norm_num [to_float]
  · rw [hs1, hs2, hs3, pyOr_none, pyOr_none]
    norm_num [to_float]
  · simp only [rawGet_nil, pyOr_none, to_float]
    linarith
  · simp only [rawGet_nil, pyOr_none, to_float]
    linarith
  · simp only [rawGet_nil, pyOr_none, to_float]
    linarith
  · simp only [rawGet_nil, pyOr_none, to_float]
    linarith

/-- Witness for the amended C4 on the empty raw record with both random
draws at 0. -/
theorem normalize_missing_fields_defaults_witness :
    ∃ L, normalize_regular_item (fun _ => "") 0 0 4 5 6 [] generalConfig = .ok L ∧
      L.price = 0 ∧ L.size = 0 ∧
      13.7 ≤ L.lat ∧ L.lat ≤ 13.8 ∧ 100.5 ≤ L.lon ∧ L.lon ≤ 100.6 :=
  normalize_missing_fields_defaults (fun _ => "") 0 0 4 5 6 generalConfig []
    (by norm_num) (by norm_num) (by norm_num) (by norm_num)
    rfl rfl rfl rfl rfl rfl rfl rfl
    (by decide) (by decide) (by decide)
